import Mathlib

/-!
Verification of the AudioScibe backend's upload / path-normalization /
deletion logic (src/backend/audio_files/services.py, schemas.py, routes.py).

Paths are modeled as Lean `String`s; the Python string and `os.path`
(posixpath) operations that the code uses are embedded as executable
functions over `List Char` (the `data` of a `String`).  The filesystem is
modeled explicitly (a list of existing paths, resp. a list of
path/content pairs) and fallible OS calls take an explicit Boolean
failure oracle.  The process working directory is modeled as the fixed
absolute path `/app` (the container workdir); `os.path.abspath` is the
pure function `normpath (join cwd p)` of posixpath.
-/

/-! ## Python string primitives (on `List Char`) -/

/-- Python `str.replace("\\", "/")` (single-character replacement). -/
def replaceBackslashes (l : List Char) : List Char :=
  l.map (fun c => if c == '\\' then '/' else c)

/-- The whitespace characters stripped by Python `str.strip()` (ASCII). -/
def isPySpace (c : Char) : Bool :=
  c == ' ' || c == '\t' || c == '\n' || c == '\r' || c == '\x0b' || c == '\x0c'

/-- Remove the leading run of whitespace (left part of `str.strip()`). -/
def lstripWs : List Char → List Char
  | [] => []
  | x :: xs => if isPySpace x then lstripWs xs else x :: xs

/-- Remove the trailing run of whitespace (right part of `str.strip()`). -/
def rstripWs : List Char → List Char
  | [] => []
  | x :: xs =>
    let r := rstripWs xs
    if r.isEmpty && isPySpace x then [] else x :: r

/-- Python `str.strip()`. -/
def pyStrip (l : List Char) : List Char := rstripWs (lstripWs l)

/-- Remove the leading run of a given character (left part of `str.strip(c)`). -/
def lstripChar (c : Char) : List Char → List Char
  | [] => []
  | x :: xs => if x == c then lstripChar c xs else x :: xs

/-- Remove the trailing run of a given character (right part of `str.strip(c)`). -/
def rstripChar (c : Char) : List Char → List Char
  | [] => []
  | x :: xs =>
    let r := rstripChar c xs
    if r.isEmpty && x == c then [] else x :: r

/-- Python `str.strip("/")`. -/
def stripSlashes (l : List Char) : List Char := rstripChar '/' (lstripChar '/' l)

/-- Does `s` start with the list `p`?  (Python `str.startswith`.) -/
def startsWithL : List Char → List Char → Bool
  | [], _ => true
  | _ :: _, [] => false
  | p :: ps, c :: cs => p == c && startsWithL ps cs

/-- Does the string contain two adjacent dots (Python `".." in v`)? -/
def containsDotDot : List Char → Bool
  | [] => false
  | [_] => false
  | a :: b :: rest => (a == '.' && b == '.') || containsDotDot (b :: rest)

/-! ## posixpath primitives -/

/--
Split a path at its last slash: returns the pair
(everything up to and including the last `'/'`, everything after it).
If the path has no slash the first component is empty.  This is the
`p[:i]` / `p[i:]` split (with `i = p.rfind('/') + 1`) that Python's
`posixpath.basename` and `posixpath.dirname` perform.
-/
def sepLast : List Char → List Char × List Char
  | [] => ([], [])
  | x :: xs =>
    if xs.contains '/' then
      let p := sepLast xs
      (x :: p.1, p.2)
    else if x == '/' then ([x], xs)
    else ([], x :: xs)

/-- Python `os.path.basename` (posix). -/
def pyBasename (l : List Char) : List Char := (sepLast l).2

/--
Python `os.path.dirname` (posix): the part up to the last slash, with
trailing slashes removed unless that part consists only of slashes.
-/
def pyDirname (l : List Char) : List Char :=
  let head := (sepLast l).1
  if head.all (fun c => c == '/') then head else rstripChar '/' head

/-- Python `os.path.join` (posix) of two components. -/
def pyJoin (a b : List Char) : List Char :=
  if b.head? == some '/' then b
  else if a.isEmpty || a.getLast? == some '/' then a ++ b
  else a ++ '/' :: b

/-- Python `"…".split('/')` (note `"".split('/') = [""]`). -/
def splitSlash : List Char → List (List Char)
  | [] => [[]]
  | c :: cs =>
    if c == '/' then [] :: splitSlash cs
    else
      match splitSlash cs with
      | [] => [[c]]
      | s :: rest => (c :: s) :: rest

/-- Number of initial slashes that `posixpath.normpath` preserves. -/
def initSlashes (l : List Char) : Nat :=
  if startsWithL ['/', '/', '/'] l then 1
  else if startsWithL ['/', '/'] l then 2
  else if startsWithL ['/'] l then 1
  else 0

/-- One step of `posixpath.normpath`'s component scan. -/
def npStep (hasRoot : Bool) (acc : List (List Char)) (comp : List Char) :
    List (List Char) :=
  if comp = [] || comp = ['.'] then acc
  else if comp ≠ ['.', '.'] || (!hasRoot && acc.isEmpty)
      || acc.getLast? == some ['.', '.'] then
    acc ++ [comp]
  else acc.dropLast

/-- Join components with `'/'` (Python `'/'.join`). -/
def joinSlash : List (List Char) → List Char
  | [] => []
  | [x] => x
  | x :: y :: rest => x ++ '/' :: joinSlash (y :: rest)

/-- Python `posixpath.normpath`. -/
def normpathL (l : List Char) : List Char :=
  if l.isEmpty then ['.']
  else
    let s := initSlashes l
    let newComps := (splitSlash l).foldl (npStep (s ≠ 0)) []
    let path := List.replicate s '/' ++ joinSlash newComps
    if path.isEmpty then ['.'] else path

/-- The process working directory (container workdir), a fixed absolute path. -/
def CWD : String := "/app"

/-- Python `os.path.abspath` (posix): `normpath(join(cwd, path))`. -/
def pyAbspath (p : List Char) : List Char := normpathL (pyJoin CWD.data p)

/-! ## services.py: path normalization -/

/-- The module-level upload root of services.py: `UPLOAD_DIR = "./uploads"`. -/
def UPLOAD_DIR : String := "./uploads"

/--
`_normalize_relative_path` of services.py: replace backslashes by
slashes, `strip()` whitespace, `strip("/")`; empty result stays empty;
if `os.path.basename` of the result contains a dot, return
`os.path.dirname` of it; otherwise return it unchanged.
-/
def _normalize_relative_path (s : String) : String :=
  let path := stripSlashes (pyStrip (replaceBackslashes s.data))
  let result :=
    if path.isEmpty then []
    else if (pyBasename path).contains '.' then pyDirname path
    else path
  ⟨result⟩

/--
The normalization rule in the spec's words (reference definition of
claim C5): replace every backslash with a forward slash, strip
surrounding whitespace and leading/trailing slashes; if the result is
empty return the empty string; if the final path segment (the part
after the last slash) contains a dot, return only the parent directory
portion (the part before the final segment, without its trailing
slashes); otherwise return the result unchanged.
-/
def specNormalize (s : String) : String :=
  let p := stripSlashes (pyStrip (replaceBackslashes s.data))
  if p.isEmpty then ⟨[]⟩
  else if (sepLast p).2.contains '.' then ⟨rstripChar '/' (sepLast p).1⟩
  else ⟨p⟩

/-! ## schemas.py: the validating boundary -/

/-- Is the character one of the forbidden set of the validator's regex. -/
def isForbiddenChar (c : Char) : Bool :=
  c == '<' || c == '>' || c == ':' || c == '"' || c == '|' || c == '?' || c == '*'

/--
`AudioFileUploadRequest.validate_path` of schemas.py: reject a
relative path containing a backslash, starting with a slash,
containing two adjacent dots, or containing a character of the
forbidden set; otherwise accept it unchanged.
-/
def validate_path (v : String) : Except String String :=
  if v.data.contains '\\' then .error "backslash separator"
  else if startsWithL ['/'] v.data then .error "absolute path"
  else if containsDotDot v.data then .error "dotdot"
  else if v.data.any isForbiddenChar then .error "forbidden character"
  else .ok v

/-! ## models.py / services.py: data model and state -/

/-- The fields of the `AudioFile` row that the verified operations use. -/
structure AudioFile where
  id : Nat
  filename : String
  file_path : String
  whisper_model : String
deriving DecidableEq, Repr

/--
System state seen by the upload / delete-by-id operations: the files on
disk (absolute path, byte content), the `audio_files` table, and the
next autoincrement id.
-/
structure SysState where
  fs : List (String × List Nat)
  db : List AudioFile
  nextId : Nat
deriving DecidableEq, Repr

/-- Write (or overwrite) a file: last write wins. -/
def fsWrite (fs : List (String × List Nat)) (p : String) (c : List Nat) :
    List (String × List Nat) :=
  fs.filter (fun e => !(e.1 == p)) ++ [(p, c)]

/-- Content of the file at a path, if it exists. -/
def fsLookup (fs : List (String × List Nat)) (p : String) : Option (List Nat) :=
  (fs.find? (fun e => e.1 == p)).map (fun e => e.2)

/-- `os.path.exists` over the file map. -/
def fsExists (fs : List (String × List Nat)) (p : String) : Bool :=
  fs.any (fun e => e.1 == p)

/-- `os.remove` over the file map. -/
def fsRemove (fs : List (String × List Nat)) (p : String) :
    List (String × List Nat) :=
  fs.filter (fun e => !(e.1 == p))

/-! ## services.py: save_audio_file -/

/-- The `file_path` stored in the database row by `save_audio_file`:
`os.path.join(model_name, rel_dir, file.filename)` when the normalized
directory is nonempty, `os.path.join(model_name, file.filename)`
otherwise. -/
def save_db_path (model_name filename rel_dir : String) : String :=
  if rel_dir ≠ "" then ⟨pyJoin (pyJoin model_name.data rel_dir.data) filename.data⟩
  else ⟨pyJoin model_name.data filename.data⟩

/-- The directory `save_audio_file` writes into:
`os.path.join(UPLOAD_DIR, model_name, rel_dir)` when the normalized
directory is nonempty, `os.path.join(UPLOAD_DIR, model_name)` otherwise. -/
def save_target_dir (model_name rel_dir : String) : String :=
  if rel_dir ≠ "" then
    ⟨pyJoin (pyJoin UPLOAD_DIR.data model_name.data) rel_dir.data⟩
  else ⟨pyJoin UPLOAD_DIR.data model_name.data⟩

/--
`save_audio_file` of services.py.  The fallible OS / DB calls take
explicit failure oracles, in program order: `os.makedirs(UPLOAD_DIR)`,
`os.makedirs(target_dir)`, the disk write, and the database insert.
A raised exception propagates (`except: raise`), carrying the state at
the failure point.
-/
def save_audio_file (filename model_name relative_path : String)
    (content : List Nat)
    (mkdirRootFails mkdirTargetFails writeFails insertFails : Bool)
    (st : SysState) : Except SysState (SysState × AudioFile) :=
  if mkdirRootFails then .error st
  else
    let rel_dir := _normalize_relative_path relative_path
    let db_file_path := save_db_path model_name filename rel_dir
    let target_dir := save_target_dir model_name rel_dir
    if mkdirTargetFails then .error st
    else
      let file_path : String := ⟨pyJoin target_dir.data filename.data⟩
      if writeFails then .error st
      else
        let fs1 := fsWrite st.fs ⟨pyAbspath file_path.data⟩ content
        if insertFails then .error { st with fs := fs1 }
        else
          let audio : AudioFile :=
            ⟨st.nextId, filename, db_file_path, model_name⟩
          .ok (⟨fs1, st.db ++ [audio], st.nextId + 1⟩, audio)

/-! ## services.py: record accessors -/

/-- `get_audio_file` of services.py (select by id, one or none). -/
def get_audio_file (file_id : Nat) (db : List AudioFile) : Option AudioFile :=
  db.find? (fun a => a.id == file_id)

/-- Deletion of the loaded row (`session.delete`): removes the row the
id lookup found, i.e. the first row with that id. -/
def removeById (file_id : Nat) : List AudioFile → List AudioFile
  | [] => []
  | a :: rest => if a.id == file_id then rest else a :: removeById file_id rest

/-- The primary-key invariant of the `audio_files` table: ids are unique. -/
def idsUnique : List AudioFile → Bool
  | [] => true
  | a :: rest => !(rest.any (fun b => b.id == a.id)) && idsUnique rest

/-- The on-disk path `delete_audio_file` removes:
`os.path.join(UPLOAD_DIR, audio.file_path)`, resolved by the OS
against the working directory. -/
def delete_disk_path (a : AudioFile) : String :=
  ⟨pyAbspath (pyJoin UPLOAD_DIR.data a.file_path.data)⟩

/--
`delete_audio_file` of services.py: load the row by id (absent row:
return `false`, nothing changes); remove the on-disk file if it exists,
catching and suppressing every exception of the removal
(`removeFails` oracle); then delete the row and return `true`.
-/
def delete_audio_file (file_id : Nat) (removeFails : Bool) (st : SysState) :
    Bool × SysState :=
  match get_audio_file file_id st.db with
  | none => (false, st)
  | some audio =>
    let p := delete_disk_path audio
    let fs1 :=
      if fsExists st.fs p then
        if removeFails then st.fs else fsRemove st.fs p
      else st.fs
    (true, ⟨fs1, removeById file_id st.db, st.nextId⟩)

/-! ## services.py: delete_directory -/

/-- Result dictionary of `delete_directory` (`status` plus detail/path). -/
inductive DirStatus where
  | deleted (path : String)
  | not_found (detail : String)
  | error (detail : String)
deriving DecidableEq, Repr

/-- The target directory `delete_directory` would remove, before
absolutization. -/
def delete_target_dir (model_name relative_path : String) : List Char :=
  let rel_dir := _normalize_relative_path relative_path
  if rel_dir ≠ "" then
    pyJoin (pyJoin UPLOAD_DIR.data model_name.data) rel_dir.data
  else pyJoin UPLOAD_DIR.data model_name.data

/-- The resolved absolute target of `delete_directory`. -/
def delete_target_abs (model_name relative_path : String) : List Char :=
  pyAbspath (delete_target_dir model_name relative_path)

/-- Is `t` a descendant of (or equal to) the directory `root`, as paths. -/
def isDescendant (root t : List Char) : Bool :=
  t == root || startsWithL (root ++ ['/']) t

/--
`delete_directory` of services.py, over a filesystem modeled as the
list of existing node paths: normalize the relative path, join, resolve
both the upload root and the target with `os.path.abspath`, refuse with
an error result when the target string does not start with the root
string, report not-found when the target does not exist, otherwise
`shutil.rmtree` the subtree (its OS errors surface as an error result;
`rmtreeFails` oracle).
-/
def delete_directory (model_name relative_path : String)
    (fs : List String) (rmtreeFails : Bool) : DirStatus × List String :=
  let abs_upload := pyAbspath UPLOAD_DIR.data
  let abs_target := delete_target_abs model_name relative_path
  if !(startsWithL abs_upload abs_target) then
    (.error "path outside the allowed area", fs)
  else if !(fs.any (fun p => p.data == abs_target)) then
    (.not_found "directory does not exist", fs)
  else if rmtreeFails then (.error "os error", fs)
  else
    (.deleted ⟨abs_target⟩,
     fs.filter (fun p =>
       !(p.data == abs_target || startsWithL (abs_target ++ ['/']) p.data)))

/-! ## routes.py -/

/--
The upload route: the request is validated by the
`AudioFileUploadRequest` boundary (a validation error stops the request
before the service runs), then `save_audio_file` runs.
-/
def upload_endpoint (model_name filename relative_path : String)
    (content : List Nat)
    (mkdirRootFails mkdirTargetFails writeFails insertFails : Bool)
    (st : SysState) : Except (String × SysState) (SysState × AudioFile) :=
  match validate_path relative_path with
  | .error msg => .error (msg, st)
  | .ok rel =>
    match save_audio_file filename model_name rel content
        mkdirRootFails mkdirTargetFails writeFails insertFails st with
    | .error e => .error ("internal error", e)
    | .ok r => .ok r

/-- Result of the download route. -/
inductive DownloadResult where
  | notFound
  | fileResponse (osPath : String) (content : Option (List Nat))
deriving DecidableEq, Repr

/--
`download_audio_file` of routes.py: look the record up by id; 404 when
there is no record or its `file_path` is empty; otherwise serve
`FileResponse(audio.file_path)` — the stored path itself, which the OS
resolves against the working directory.
-/
def download_audio_file (file_id : Nat) (st : SysState) : DownloadResult :=
  match get_audio_file file_id st.db with
  | none => .notFound
  | some audio =>
    if audio.file_path = "" then .notFound
    else
      let osPath : String := ⟨pyAbspath audio.file_path.data⟩
      .fileResponse osPath (fsLookup st.fs osPath)

/-! ## Lemmas about the string primitives -/

theorem lstripChar_head_ne (c : Char) (l : List Char) :
    (lstripChar c l).head? ≠ some c := by
  induction l with
  | nil => simp [lstripChar]
  | cons x xs ih =>
    by_cases h : (x == c) = true
    · simpa [lstripChar, h] using ih
    · have hx : x ≠ c := by simpa using h
      simp [lstripChar, hx]

theorem rstripChar_head?_cases (c : Char) (l : List Char) :
    (rstripChar c l).head? = none ∨ (rstripChar c l).head? = l.head? := by
  cases l with
  | nil => left; rfl
  | cons x xs =>
    simp only [rstripChar]
    split
    · left; rfl
    · right; rfl

theorem rstripChar_getLast?_ne (c : Char) (l : List Char) :
    (rstripChar c l).getLast? ≠ some c := by
  induction l with
  | nil => simp [rstripChar]
  | cons x xs ih =>
    show (if ((rstripChar c xs).isEmpty && (x == c)) = true then []
          else x :: rstripChar c xs).getLast? ≠ some c
    by_cases hc : ((rstripChar c xs).isEmpty && (x == c)) = true
    · simp [hc]
    · rw [if_neg hc]
      rcases hr : rstripChar c xs with _ | ⟨y, ys⟩
      · have hx : (x == c) = false := by
          cases hxc : (x == c) with
          | false => rfl
          | true => exact absurd (by rw [hr, hxc]; rfl) hc
        have hx2 : x ≠ c := beq_eq_false_iff_ne.mp hx
        simp [hx2]
      · rw [List.getLast?_cons_cons]
        rw [hr] at ih
        exact ih

theorem lstripChar_eq_self (c : Char) (l : List Char)
    (h : l.head? ≠ some c) : lstripChar c l = l := by
  cases l with
  | nil => rfl
  | cons x xs =>
    have hx : x ≠ c := fun he => h (by simp [he])
    simp [lstripChar, hx]

theorem rstripChar_eq_self (c : Char) (l : List Char)
    (h : l.getLast? ≠ some c) : rstripChar c l = l := by
  induction l with
  | nil => rfl
  | cons x xs ih =>
    show (if ((rstripChar c xs).isEmpty && (x == c)) = true then []
          else x :: rstripChar c xs) = x :: xs
    cases xs with
    | nil =>
      have hx : x ≠ c := fun he => h (by simp [he])
      simp [rstripChar, hx]
    | cons y ys =>
      rw [List.getLast?_cons_cons] at h
      rw [ih h]
      simp

theorem lstripWs_eq_self (l : List Char)
    (h : ∀ x, l.head? = some x → isPySpace x = false) : lstripWs l = l := by
  cases l with
  | nil => rfl
  | cons x xs => simp [lstripWs, h x rfl]

theorem rstripWs_eq_self (l : List Char)
    (h : ∀ x, l.getLast? = some x → isPySpace x = false) : rstripWs l = l := by
  induction l with
  | nil => rfl
  | cons x xs ih =>
    show (if ((rstripWs xs).isEmpty && isPySpace x) = true then []
          else x :: rstripWs xs) = x :: xs
    cases xs with
    | nil => simp [rstripWs, h x (by simp)]
    | cons y ys =>
      rw [ih (fun z hz => h z (by rw [List.getLast?_cons_cons]; exact hz))]
      simp

theorem replaceBackslashes_eq_self (l : List Char)
    (h : '\\' ∉ l) : replaceBackslashes l = l := by
  induction l with
  | nil => rfl
  | cons x xs ih =>
    simp only [List.mem_cons, not_or] at h
    have hx : ¬ ((x == '\\') = true) := by
      simp only [beq_iff_eq]
      exact fun he => h.1 he.symm
    show (if (x == '\\') = true then '/' else x) :: replaceBackslashes xs = x :: xs
    rw [if_neg hx, ih h.2]

theorem sepLast_fst_head? (l : List Char)
    (h : (sepLast l).1 ≠ []) : (sepLast l).1.head? = l.head? := by
  cases l with
  | nil => exact absurd rfl h
  | cons x xs =>
    show (if xs.contains '/' = true then (x :: (sepLast xs).1, (sepLast xs).2)
          else if (x == '/') = true then ([x], xs)
          else ([], x :: xs)).1.head? = (x :: xs).head?
    by_cases h1 : xs.contains '/' = true
    · rw [if_pos h1]
      rfl
    · rw [if_neg h1]
      by_cases h2 : (x == '/') = true
      · rw [if_pos h2]
        rfl
      · rw [if_neg h2]
        refine absurd ?_ h
        show (if xs.contains '/' = true then (x :: (sepLast xs).1, (sepLast xs).2)
              else if (x == '/') = true then ([x], xs)
              else ([], x :: xs)).1 = []
        rw [if_neg h1, if_neg h2]

theorem pyDirname_of_head_ne_slash (l : List Char)
    (h : l.head? ≠ some '/') : pyDirname l = rstripChar '/' (sepLast l).1 := by
  unfold pyDirname
  rcases hh : (sepLast l).1 with _ | ⟨y, ys⟩
  · simp [rstripChar]
  · have hy : (y :: ys).head? = l.head? := by
      rw [← hh]
      exact sepLast_fst_head? l (by rw [hh]; simp)
    have hyne : y ≠ '/' := by
      intro he
      exact h (by rw [← hy, he]; exact rfl)
    simp [hyne]

theorem stripSlashes_head_ne (l : List Char) :
    (stripSlashes l).head? ≠ some '/' := by
  unfold stripSlashes
  rcases rstripChar_head?_cases '/' (lstripChar '/' l) with h | h
  · simp [h]
  · rw [h]
    exact lstripChar_head_ne '/' l

theorem stripSlashes_getLast_ne (l : List Char) :
    (stripSlashes l).getLast? ≠ some '/' := rstripChar_getLast?_ne '/' _

/-! ## Claim C5: the normalization rule -/

theorem normalize_eq_specNormalize (s : String) :
    _normalize_relative_path s = specNormalize s := by
  unfold _normalize_relative_path specNormalize
  by_cases h0 : (stripSlashes (pyStrip (replaceBackslashes s.data))).isEmpty = true
  · simp only [h0, if_true]
  · simp only [h0, Bool.false_eq_true, if_false]
    by_cases hdot :
        ((sepLast (stripSlashes (pyStrip (replaceBackslashes s.data)))).2.contains '.') = true
    · have hb : (pyBasename (stripSlashes (pyStrip (replaceBackslashes s.data)))).contains '.' = true := hdot
      simp only [hb, hdot, if_true]
      exact congrArg String.mk
        (pyDirname_of_head_ne_slash _ (stripSlashes_head_ne _))
    · have hb : (pyBasename (stripSlashes (pyStrip (replaceBackslashes s.data)))).contains '.' = false := by
        simpa using hdot
      simp only [hb, hdot, Bool.false_eq_true, if_false]

/-- C5: path normalization agrees everywhere with the spec's reference
rule, and in particular sends "songs/episode1.mp3" to "songs" and both
"" and "   " to "". -/
theorem normalize_matches_spec_rule :
    (∀ s : String, _normalize_relative_path s = specNormalize s)
    ∧ _normalize_relative_path "songs/episode1.mp3" = "songs"
    ∧ _normalize_relative_path "" = ""
    ∧ _normalize_relative_path "   " = "" :=
  ⟨normalize_eq_specNormalize, by decide, by decide, by decide⟩

/-! ## Claim C7: idempotence on already-normalized inputs -/

/-- The claim's description of an already-normalized path: no
backslash, no leading or trailing slash, no dot in the final segment. -/
def claimNormalizedShape (s : String) : Bool :=
  !s.data.contains '\\'
    && !(s.data.head? == some '/')
    && !(s.data.getLast? == some '/')
    && !(pyBasename s.data).contains '.'

/-- No whitespace at either end of the string. -/
def noSurroundingWs (s : String) : Bool :=
  s.data.head?.all (fun c => !isPySpace c)
    && s.data.getLast?.all (fun c => !isPySpace c)

/-- C7 (counterexample): " a" satisfies every condition the claim lists
(no dot-containing final segment, no leading or trailing slash, only
forward slashes), yet normalization changes it, because surrounding
whitespace is also stripped. -/
theorem normalize_not_id_on_claim_shape :
    claimNormalizedShape " a" = true ∧ _normalize_relative_path " a" ≠ " a" := by
  decide

/-- C7 (amended): on a path with no surrounding whitespace, no
dot-containing final segment, no leading or trailing slash and only
forward-slash separators, normalization is the identity. -/
theorem normalize_id_on_normalized_shape (s : String)
    (h1 : claimNormalizedShape s = true) (h2 : noSurroundingWs s = true) :
    _normalize_relative_path s = s := by
  obtain ⟨l⟩ := s
  simp only [claimNormalizedShape, Bool.and_eq_true, Bool.not_eq_true'] at h1
  obtain ⟨⟨⟨hbs, hh⟩, hl⟩, hdot⟩ := h1
  simp only [noSurroundingWs, Bool.and_eq_true] at h2
  obtain ⟨hwh, hwl⟩ := h2
  have hbs2 : '\\' ∉ l := by
    intro hmem
    rw [show l.contains '\\' = l.elem '\\' from rfl,
      List.elem_eq_true_of_mem hmem] at hbs
    cases hbs
  have hh2 : l.head? ≠ some '/' := beq_eq_false_iff_ne.mp hh
  have hl2 : l.getLast? ≠ some '/' := beq_eq_false_iff_ne.mp hl
  have hwh2 : ∀ x, l.head? = some x → isPySpace x = false := by
    intro x hx
    rw [hx] at hwh
    simpa using hwh
  have hwl2 : ∀ x, l.getLast? = some x → isPySpace x = false := by
    intro x hx
    rw [hx] at hwl
    simpa using hwl
  have e1 : replaceBackslashes l = l := replaceBackslashes_eq_self l hbs2
  have e2 : pyStrip l = l := by
    unfold pyStrip
    rw [lstripWs_eq_self l hwh2, rstripWs_eq_self l hwl2]
  have e3 : stripSlashes l = l := by
    unfold stripSlashes
    rw [lstripChar_eq_self '/' l hh2, rstripChar_eq_self '/' l hl2]
  unfold _normalize_relative_path
  simp only [e1, e2, e3]
  rcases l with _ | ⟨x, xs⟩
  · rfl
  · simp only [List.isEmpty_cons, Bool.false_eq_true, if_false, hdot]

/-- Witness for the amended C7 at the concrete path "songs/album". -/
theorem normalize_id_on_normalized_shape_witness :
    _normalize_relative_path "songs/album" = "songs/album" :=
  normalize_id_on_normalized_shape "songs/album" (by decide) (by decide)

/-! ## Claim C3: upload writes before inserting -/

theorem fsLookup_fsWrite (fs : List (String × List Nat)) (p : String)
    (c : List Nat) : fsLookup (fsWrite fs p c) p = some c := by
  unfold fsLookup fsWrite
  induction fs with
  | nil => simp [List.find?]
  | cons e rest ih =>
    by_cases he : (e.1 == p) = true
    · simp [List.filter_cons, he]
    · simp [List.filter_cons, he, List.find?_cons]

/-- Closed form of `save_audio_file`, by cases on the four oracles. -/
theorem save_audio_file_eq (fn m r : String) (c : List Nat)
    (o1 o2 o3 o4 : Bool) (st : SysState) :
    save_audio_file fn m r c o1 o2 o3 o4 st =
      if o1 = true then .error st
      else if o2 = true then .error st
      else if o3 = true then .error st
      else
        let d := _normalize_relative_path r
        let fs1 := fsWrite st.fs
          ⟨pyAbspath (pyJoin (save_target_dir m d).data fn.data)⟩ c
        if o4 = true then .error { st with fs := fs1 }
        else .ok (⟨fs1, st.db ++ [⟨st.nextId, fn, save_db_path m fn d, m⟩],
                   st.nextId + 1⟩,
                  ⟨st.nextId, fn, save_db_path m fn d, m⟩) := by
  cases o1 <;> cases o2 <;> cases o3 <;> cases o4 <;> rfl

/-- C3: if directory creation or the disk write fails, the upload
aborts with an error and the database rows and id counter are exactly
as before (in fact every error leaves them unchanged); on success the
only new row is the returned record and its content has been written
to the target file. -/
theorem save_aborts_without_db_mutation (fn m r : String) (c : List Nat)
    (o1 o2 o3 o4 : Bool) (st : SysState) :
    (∀ e, save_audio_file fn m r c o1 o2 o3 o4 st = .error e →
        e.db = st.db ∧ e.nextId = st.nextId)
    ∧ ((o1 || o2 || o3) = true →
        ∃ e, save_audio_file fn m r c o1 o2 o3 o4 st = .error e)
    ∧ (∀ st1 a, save_audio_file fn m r c o1 o2 o3 o4 st = .ok (st1, a) →
        st1.db = st.db ++ [a]
        ∧ fsLookup st1.fs
            ⟨pyAbspath
              (pyJoin (save_target_dir m (_normalize_relative_path r)).data
                fn.data)⟩ = some c) := by
  rw [save_audio_file_eq]
  cases o1 <;> cases o2 <;> cases o3 <;> cases o4 <;>
    refine ⟨fun e he => ?_, fun hor => ?_, fun st1 a hok => ?_⟩ <;>
    first
      | exact ⟨_, rfl⟩
      | (simp_all [fsLookup_fsWrite]
         <;> first
           | (obtain ⟨rfl, rfl⟩ := hok
              exact ⟨rfl, fsLookup_fsWrite _ _ _⟩)
           | (obtain rfl := he
              exact ⟨rfl, rfl⟩))

/-- Witness for C3: a failing disk write aborts the upload. -/
theorem save_aborts_witness :
    ∃ e, save_audio_file "take.wav" "base" "dir" [1, 2]
        false false true false ⟨[], [], 5⟩ = .error e :=
  (save_aborts_without_db_mutation "take.wav" "base" "dir" [1, 2]
    false false true false ⟨[], [], 5⟩).2.1 (by decide)

/-! ## Claim C6: shape of the stored relative path -/

theorem pyJoin_of_sane (a b : List Char) (ha : a ≠ [])
    (haL : a.getLast? ≠ some '/') (hb : b.head? ≠ some '/') :
    pyJoin a b = a ++ '/' :: b := by
  unfold pyJoin
  rw [if_neg, if_neg]
  · simp only [Bool.or_eq_true, not_or]
    constructor
    · simp [List.isEmpty_iff, ha]
    · simp only [beq_iff_eq]
      exact haL
  · simp only [beq_iff_eq]
    exact hb

theorem startsWithL_append_self (p q : List Char) :
    startsWithL p (p ++ q) = true := by
  induction p with
  | nil => rfl
  | cons x xs ih => simp [startsWithL, ih]

theorem startsWithL_append_cons (p : List Char) (a : Char) (q : List Char) :
    startsWithL (p ++ [a]) (p ++ a :: q) = true := by
  induction p with
  | nil => simp [startsWithL]
  | cons x xs ih => simp [startsWithL, ih]

theorem rstrip_sepLast_head_ne (l : List Char) (h : l.head? ≠ some '/') :
    (rstripChar '/' (sepLast l).1).head? ≠ some '/' := by
  rcases rstripChar_head?_cases '/' (sepLast l).1 with hc | hc
  · simp [hc]
  · rw [hc]
    rcases hq : (sepLast l).1 with _ | ⟨y, ys⟩
    · simp
    · rw [← hq, sepLast_fst_head? l (by rw [hq]; simp)]
      exact h

theorem normalize_head_ne (r : String) :
    (_normalize_relative_path r).data.head? ≠ some '/' := by
  unfold _normalize_relative_path
  by_cases h0 : (stripSlashes (pyStrip (replaceBackslashes r.data))).isEmpty = true
  · simp [h0]
  · by_cases hdot :
        (pyBasename (stripSlashes (pyStrip (replaceBackslashes r.data)))).contains '.'
          = true
    · simp only [h0, Bool.false_eq_true, if_false, hdot, if_true]
      show (pyDirname (stripSlashes (pyStrip (replaceBackslashes r.data)))).head?
          ≠ some '/'
      rw [pyDirname_of_head_ne_slash _ (stripSlashes_head_ne _)]
      exact rstrip_sepLast_head_ne _ (stripSlashes_head_ne _)
    · simp only [h0, Bool.false_eq_true, if_false, hdot]
      exact stripSlashes_head_ne _

theorem normalize_getLast_ne (r : String) :
    (_normalize_relative_path r).data.getLast? ≠ some '/' := by
  unfold _normalize_relative_path
  by_cases h0 : (stripSlashes (pyStrip (replaceBackslashes r.data))).isEmpty = true
  · simp [h0]
  · by_cases hdot :
        (pyBasename (stripSlashes (pyStrip (replaceBackslashes r.data)))).contains '.'
          = true
    · simp only [h0, Bool.false_eq_true, if_false, hdot, if_true]
      show (pyDirname (stripSlashes (pyStrip (replaceBackslashes r.data)))).getLast?
          ≠ some '/'
      rw [pyDirname_of_head_ne_slash _ (stripSlashes_head_ne _)]
      exact rstripChar_getLast?_ne '/' _
    · simp only [h0, Bool.false_eq_true, if_false, hdot]
      exact stripSlashes_getLast_ne _

theorem normalize_data_ne_nil (r : String)
    (h : _normalize_relative_path r ≠ "") :
    (_normalize_relative_path r).data ≠ [] := by
  intro hd
  exact h (String.ext hd)

/-- C6 (amended): for a model identifier that is nonempty and does not
end in a slash, and a filename that does not START with a slash, the
stored relative path is model/filename (empty normalized directory) or
model/dir/filename, and in particular starts with the model segment.
(Unrestricted filenames break this: os.path.join discards everything
before an absolute component, see the counterexample.) -/
theorem stored_path_shape (m rel f : String) (hm : m ≠ "")
    (hmL : m.data.getLast? ≠ some '/') (hf : f.data.head? ≠ some '/') :
    (save_db_path m f (_normalize_relative_path rel)
        = if _normalize_relative_path rel = "" then m ++ "/" ++ f
          else m ++ "/" ++ _normalize_relative_path rel ++ "/" ++ f)
    ∧ startsWithL (m.data ++ ['/'])
        (save_db_path m f (_normalize_relative_path rel)).data = true
    ∧ ∀ (c : List Nat) (st : SysState), ∃ st1,
        save_audio_file f m rel c false false false false st
          = .ok (st1,
              ⟨st.nextId, f, save_db_path m f (_normalize_relative_path rel), m⟩) := by
  have hmd : m.data ≠ [] := fun hd => hm (String.ext (by simpa using hd))
  by_cases hd0 : _normalize_relative_path rel = ""
  · have hsd : save_db_path m f (_normalize_relative_path rel)
        = ⟨pyJoin m.data f.data⟩ := by
      unfold save_db_path
      rw [if_neg (by simp [hd0])]
    have hj : pyJoin m.data f.data = m.data ++ '/' :: f.data :=
      pyJoin_of_sane m.data f.data hmd hmL hf
    refine ⟨?_, ?_, ?_⟩
    · rw [if_pos hd0, hsd, hj]
      apply String.ext
      rw [String.data_append (m ++ "/") f, String.data_append m "/"]
      show m.data ++ '/' :: f.data = (m.data ++ ['/']) ++ f.data
      exact List.append_cons m.data '/' f.data
    · rw [hsd, hj]
      show startsWithL (m.data ++ ['/']) (m.data ++ '/' :: f.data) = true
      exact startsWithL_append_cons _ _ _
    · intro c st
      exact ⟨_, rfl⟩
  · have hdd : (_normalize_relative_path rel).data ≠ [] :=
      normalize_data_ne_nil rel hd0
    have hj1 : pyJoin m.data (_normalize_relative_path rel).data
        = m.data ++ '/' :: (_normalize_relative_path rel).data :=
      pyJoin_of_sane _ _ hmd hmL (normalize_head_ne rel)
    have hL1 : (m.data ++ '/' :: (_normalize_relative_path rel).data).getLast?
        ≠ some '/' := by
      rw [List.getLast?_append_cons m.data '/' (_normalize_relative_path rel).data]
      rcases hq : (_normalize_relative_path rel).data with _ | ⟨y, ys⟩
      · exact absurd hq hdd
      · rw [List.getLast?_cons_cons, ← hq]
        exact normalize_getLast_ne rel
    have hj2 : pyJoin (m.data ++ '/' :: (_normalize_relative_path rel).data) f.data
        = (m.data ++ '/' :: (_normalize_relative_path rel).data) ++ '/' :: f.data :=
      pyJoin_of_sane _ _ (by simp) hL1 hf
    have hsd : save_db_path m f (_normalize_relative_path rel)
        = ⟨(m.data ++ '/' :: (_normalize_relative_path rel).data) ++ '/' :: f.data⟩ := by
      unfold save_db_path
      rw [if_pos hd0, hj1, hj2]
    refine ⟨?_, ?_, ?_⟩
    · rw [if_neg hd0, hsd]
      apply String.ext
      rw [String.data_append (m ++ "/" ++ _normalize_relative_path rel ++ "/") f,
        String.data_append (m ++ "/" ++ _normalize_relative_path rel) "/",
        String.data_append (m ++ "/") (_normalize_relative_path rel),
        String.data_append m "/"]
      show (m.data ++ '/' :: (_normalize_relative_path rel).data) ++ '/' :: f.data
          = ((m.data ++ ['/']) ++ (_normalize_relative_path rel).data ++ ['/']) ++ f.data
      simp
    · rw [hsd]
      show startsWithL (m.data ++ ['/'])
        ((m.data ++ '/' :: (_normalize_relative_path rel).data) ++ '/' :: f.data) = true
      have hassoc : (m.data ++ '/' :: (_normalize_relative_path rel).data) ++ '/' :: f.data
          = m.data ++ '/' :: ((_normalize_relative_path rel).data ++ '/' :: f.data) := by
        simp
      rw [hassoc]
      exact startsWithL_append_cons _ _ _
    · intro c st
      exact ⟨_, rfl⟩

/-- Witness for the amended C6 at model "base", directory "songs",
filename "take1.wav". -/
theorem stored_path_shape_witness :
    (save_db_path "base" "take1.wav" (_normalize_relative_path "songs")
        = if _normalize_relative_path "songs" = "" then "base" ++ "/" ++ "take1.wav"
          else "base" ++ "/" ++ _normalize_relative_path "songs" ++ "/" ++ "take1.wav")
    ∧ startsWithL ("base".data ++ ['/'])
        (save_db_path "base" "take1.wav" (_normalize_relative_path "songs")).data = true
    ∧ ∀ (c : List Nat) (st : SysState), ∃ st1,
        save_audio_file "take1.wav" "base" "songs" c false false false false st
          = .ok (st1,
              ⟨st.nextId, "take1.wav",
               save_db_path "base" "take1.wav" (_normalize_relative_path "songs"),
               "base"⟩) :=
  stored_path_shape "base" "songs" "take1.wav" (by decide) (by decide) (by decide)

/-- C6 (counterexample): a filename beginning with a slash makes
os.path.join discard the model component entirely: the stored path is
"/x", which is neither model/filename nor prefixed by the model
segment. -/
theorem stored_path_escapes_model :
    save_audio_file "/x" "base" "" [1] false false false false ⟨[], [], 1⟩
      = .ok (⟨[("/x", [1])], [⟨1, "/x", "/x", "base"⟩], 2⟩,
             ⟨1, "/x", "/x", "base"⟩)
    ∧ ("/x" : String) ≠ "base" ++ "/" ++ "/x"
    ∧ startsWithL ("base".data ++ ['/']) ("/x" : String).data = false :=
  ⟨rfl, by decide, by decide⟩

/-! ## Claim C2: the download route -/

/-- C2: after a successful upload that wrote the bytes to
/app/uploads/base/take1.wav, the download route serves the stored
relative path resolved against the working directory —
/app/base/take1.wav — where no file exists (content is none): the
route omits the UPLOAD_DIR prefix that delete-by-id adds, so it never
returns the uploaded bytes.  A missing record still yields 404. -/
theorem download_serves_unprefixed_path :
    save_audio_file "take1.wav" "base" "" [7, 8, 9] false false false false
        ⟨[], [], 1⟩
      = .ok (⟨[("/app/uploads/base/take1.wav", [7, 8, 9])],
              [⟨1, "take1.wav", "base/take1.wav", "base"⟩], 2⟩,
             ⟨1, "take1.wav", "base/take1.wav", "base"⟩)
    ∧ download_audio_file 1
        ⟨[("/app/uploads/base/take1.wav", [7, 8, 9])],
         [⟨1, "take1.wav", "base/take1.wav", "base"⟩], 2⟩
      = .fileResponse "/app/base/take1.wav" none
    ∧ fsLookup [("/app/uploads/base/take1.wav", [7, 8, 9])]
        "/app/uploads/base/take1.wav" = some [7, 8, 9]
    ∧ ("/app/base/take1.wav" : String) ≠ "/app/uploads/base/take1.wav"
    ∧ download_audio_file 2
        ⟨[("/app/uploads/base/take1.wav", [7, 8, 9])],
         [⟨1, "take1.wav", "base/take1.wav", "base"⟩], 2⟩
      = .notFound :=
  ⟨rfl, by decide, by decide, by decide, by decide⟩

/-! ## Claims C8 and C10: delete-by-id -/

theorem removeById_all_ne (fid : Nat) (db : List AudioFile)
    (h : idsUnique db = true) :
    (removeById fid db).all (fun a => !(a.id == fid)) = true := by
  induction db with
  | nil => rfl
  | cons a rest ih =>
    simp only [idsUnique, Bool.and_eq_true, Bool.not_eq_true'] at h
    obtain ⟨hany, hrest⟩ := h
    by_cases ha : (a.id == fid) = true
    · have haeq : a.id = fid := by simpa using ha
      simp only [removeById, ha, if_true]
      rw [haeq] at hany
      simp only [List.all_eq_true]
      intro x hx
      have := (List.any_eq_false.mp hany) x hx
      simpa using this
    · simp only [removeById, ha, Bool.false_eq_true, if_false]
      simp only [List.all_cons, Bool.and_eq_true]
      exact ⟨by simpa using ha, ih hrest⟩

theorem removeById_mem_of_ne (fid : Nat) (db : List AudioFile) (a : AudioFile)
    (hmem : a ∈ db) (hne : a.id ≠ fid) : a ∈ removeById fid db := by
  induction db with
  | nil => cases hmem
  | cons b rest ih =>
    rcases List.mem_cons.mp hmem with rfl | hmem2
    · have hb : (a.id == fid) = false := by simpa using hne
      simp [removeById, hb]
    · by_cases hb : (b.id == fid) = true
      · simpa [removeById, hb] using hmem2
      · simp only [removeById, hb, Bool.false_eq_true, if_false]
        exact List.mem_cons.mpr (Or.inr (ih hmem2))

/-- C8: delete-by-id reports whether a record with the id existed;
when none does, nothing changes; when one does (with unique ids), the
row is gone and every other row survives; and a backing file missing
from disk neither fails the operation nor blocks the row deletion. -/
theorem delete_by_id_reports_and_removes (fid : Nat) (rf : Bool)
    (st : SysState) :
    ((delete_audio_file fid rf st).1 = st.db.any (fun a => a.id == fid))
    ∧ ((delete_audio_file fid rf st).1 = false →
        (delete_audio_file fid rf st).2 = st)
    ∧ (idsUnique st.db = true →
        (delete_audio_file fid rf st).2.db.all (fun a => !(a.id == fid)) = true
        ∧ ∀ a ∈ st.db, a.id ≠ fid → a ∈ (delete_audio_file fid rf st).2.db)
    ∧ (∀ a, get_audio_file fid st.db = some a →
        fsExists st.fs (delete_disk_path a) = false →
        ((delete_audio_file fid rf st).1 = true
         ∧ (delete_audio_file fid rf st).2.fs = st.fs)) := by
  rcases hfind : get_audio_file fid st.db with _ | a
  · have hnone : ∀ x ∈ st.db, ¬ ((fun a => a.id == fid) x = true) :=
      List.find?_eq_none.mp hfind
    have hany : st.db.any (fun a => a.id == fid) = false :=
      List.any_eq_false.mpr hnone
    refine ⟨?_, ?_, ?_, ?_⟩
    · simp [delete_audio_file, hfind, hany]
    · intro _
      simp [delete_audio_file, hfind]
    · intro _
      constructor
      · simp only [delete_audio_file, hfind]
        simp only [List.all_eq_true]
        intro x hx
        have := hnone x hx
        simpa using this
      · intro a hmem _
        simpa [delete_audio_file, hfind] using hmem
    · intro a ha
      cases ha
  · have hfind2 : st.db.find? (fun x => x.id == fid) = some a := hfind
    have hbeq0 := List.find?_some hfind2
    have hbeq : (a.id == fid) = true := hbeq0
    have hmem : a ∈ st.db := List.mem_of_find?_eq_some hfind2
    have hany : st.db.any (fun x => x.id == fid) = true :=
      List.any_eq_true.mpr ⟨a, hmem, hbeq⟩
    refine ⟨?_, ?_, ?_, ?_⟩
    · simp [delete_audio_file, hfind, hany]
    · intro hfalse
      rw [show (delete_audio_file fid rf st).1 = true by
        simp [delete_audio_file, hfind]] at hfalse
      cases hfalse
    · intro huniq
      constructor
      · simp only [delete_audio_file, hfind]
        exact removeById_all_ne fid st.db huniq
      · intro x hx hxne
        simp only [delete_audio_file, hfind]
        exact removeById_mem_of_ne fid st.db x hx hxne
    · intro a2 ha2 hex
      obtain rfl : a = a2 := by cases ha2; rfl
      constructor
      · simp [delete_audio_file, hfind]
      · simp [delete_audio_file, hfind, hex]

/-- Witness for C8: deleting record 1 whose file is absent from an
empty disk succeeds and leaves the (empty) filesystem alone. -/
theorem delete_by_id_witness :
    (delete_audio_file 1 false
        ⟨[], [⟨1, "f.wav", "base/f.wav", "base"⟩], 2⟩).1 = true
    ∧ (delete_audio_file 1 false
        ⟨[], [⟨1, "f.wav", "base/f.wav", "base"⟩], 2⟩).2.fs
      = (⟨[], [⟨1, "f.wav", "base/f.wav", "base"⟩], 2⟩ : SysState).fs :=
  (delete_by_id_reports_and_removes 1 false
      ⟨[], [⟨1, "f.wav", "base/f.wav", "base"⟩], 2⟩).2.2.2
    ⟨1, "f.wav", "base/f.wav", "base"⟩ (by decide) (by decide)

/-- C10: when the record exists and the on-disk file exists but its
removal raises, the exception is swallowed: the operation still
reports success, the filesystem is unchanged, and the row is deleted
all the same. -/
theorem delete_by_id_ignores_remove_error (fid : Nat) (st : SysState)
    (a : AudioFile) (hfind : get_audio_file fid st.db = some a)
    (hex : fsExists st.fs (delete_disk_path a) = true) :
    (delete_audio_file fid true st).1 = true
    ∧ (delete_audio_file fid true st).2.fs = st.fs
    ∧ (idsUnique st.db = true →
        (delete_audio_file fid true st).2.db.all (fun x => !(x.id == fid)) = true) := by
  refine ⟨?_, ?_, ?_⟩
  · simp [delete_audio_file, hfind]
  · simp [delete_audio_file, hfind, hex]
  · intro huniq
    simp only [delete_audio_file, hfind]
    exact removeById_all_ne fid st.db huniq

/-- Witness for C10 at a concrete state whose disk holds the record's
backing file. -/
theorem delete_by_id_ignores_remove_error_witness :
    (delete_audio_file 1 true
        ⟨[("/app/uploads/base/f.wav", [0])],
         [⟨1, "f.wav", "base/f.wav", "base"⟩], 2⟩).1 = true
    ∧ (delete_audio_file 1 true
        ⟨[("/app/uploads/base/f.wav", [0])],
         [⟨1, "f.wav", "base/f.wav", "base"⟩], 2⟩).2.fs
      = (⟨[("/app/uploads/base/f.wav", [0])],
          [⟨1, "f.wav", "base/f.wav", "base"⟩], 2⟩ : SysState).fs
    ∧ (idsUnique (⟨[("/app/uploads/base/f.wav", [0])],
          [⟨1, "f.wav", "base/f.wav", "base"⟩], 2⟩ : SysState).db = true →
        (delete_audio_file 1 true
          ⟨[("/app/uploads/base/f.wav", [0])],
           [⟨1, "f.wav", "base/f.wav", "base"⟩], 2⟩).2.db.all
            (fun x => !(x.id == 1)) = true) :=
  delete_by_id_ignores_remove_error 1
    ⟨[("/app/uploads/base/f.wav", [0])],
     [⟨1, "f.wav", "base/f.wav", "base"⟩], 2⟩
    ⟨1, "f.wav", "base/f.wav", "base"⟩ (by decide) (by decide)

/-! ## Claim C4: the boundary validator -/

theorem validate_path_rejects (v : String)
    (h : (v.data.contains '\\' || startsWithL ['/'] v.data
          || containsDotDot v.data || v.data.any isForbiddenChar) = true) :
    ∃ msg, validate_path v = .error msg := by
  unfold validate_path
  by_cases h1 : v.data.contains '\\' = true
  · exact ⟨_, by rw [if_pos h1]⟩
  · rw [if_neg h1]
    by_cases h2 : startsWithL ['/'] v.data = true
    · exact ⟨_, by rw [if_pos h2]⟩
    · rw [if_neg h2]
      by_cases h3 : containsDotDot v.data = true
      · exact ⟨_, by rw [if_pos h3]⟩
      · rw [if_neg h3]
        by_cases h4 : v.data.any isForbiddenChar = true
        · exact ⟨_, by rw [if_pos h4]⟩
        · exfalso
          simp only [Bool.or_eq_true] at h
          rcases h with ((ha | hb) | hc) | hd
          · exact h1 ha
          · exact h2 hb
          · exact h3 hc
          · exact h4 hd

/-- C4: every relative path containing "..", a backslash, a leading
slash, or a forbidden character is rejected by the validating boundary,
and the upload endpoint then stops with a validation error and an
unchanged state, so the service (and with it normalization) never runs
on such an input. -/
theorem boundary_rejects_before_normalization (v : String)
    (h : (v.data.contains '\\' || startsWithL ['/'] v.data
          || containsDotDot v.data || v.data.any isForbiddenChar) = true) :
    (∃ msg, validate_path v = .error msg)
    ∧ ∀ (m fn : String) (c : List Nat) (o1 o2 o3 o4 : Bool) (st : SysState),
        ∃ msg, upload_endpoint m fn v c o1 o2 o3 o4 st = .error (msg, st) := by
  obtain ⟨msg, hv⟩ := validate_path_rejects v h
  refine ⟨⟨msg, hv⟩, ?_⟩
  intro m fn c o1 o2 o3 o4 st
  refine ⟨msg, ?_⟩
  unfold upload_endpoint
  rw [hv]

/-- Witness for C4 at the concrete input "../x". -/
theorem boundary_rejects_witness :
    ∃ msg, validate_path "../x" = .error msg :=
  (boundary_rejects_before_normalization "../x" (by decide)).1

/-! ## Claims C1 and C9: delete_directory -/

/-- C1 (amended): whenever the resolved absolute target does not have
the resolved absolute upload root as a string prefix, delete_directory
returns an error result and leaves the filesystem untouched.  (The
code's check is this string comparison, not a descendant check.) -/
theorem delete_directory_error_of_no_root_start (m r : String)
    (fs : List String) (rf : Bool)
    (h : startsWithL (pyAbspath UPLOAD_DIR.data) (delete_target_abs m r) = false) :
    delete_directory m r fs rf = (.error "path outside the allowed area", fs) := by
  simp only [delete_directory]
  rw [h]
  rfl

/-- Witness for the amended C1: the spec's own "../../etc" example is
refused and the filesystem is unchanged. -/
theorem delete_directory_error_witness :
    delete_directory "base" "../../etc" ["/app/uploads"] false
      = (.error "path outside the allowed area", ["/app/uploads"]) :=
  delete_directory_error_of_no_root_start "base" "../../etc"
    ["/app/uploads"] false (by decide)

/-- C1 (counterexample): the target resolved from relative path
"../../uploadsX" is NOT a descendant of the upload root /app/uploads,
yet delete_directory deletes it: the string-prefix check accepts the
sibling directory /app/uploadsX. -/
theorem delete_directory_escapes_root :
    isDescendant (pyAbspath UPLOAD_DIR.data)
        (delete_target_abs "base" "../../uploadsX") = false
    ∧ delete_directory "base" "../../uploadsX" ["/app/uploadsX"] false
        = (.deleted "/app/uploadsX", []) := by
  decide

/-- C9 (amended): when the containment check passes and the resolved
target does not exist, delete_directory returns a not-found result and
leaves the filesystem untouched. -/
theorem delete_directory_not_found_inside (m r : String)
    (fs : List String) (rf : Bool)
    (h1 : startsWithL (pyAbspath UPLOAD_DIR.data) (delete_target_abs m r) = true)
    (h2 : fs.any (fun p => p.data == delete_target_abs m r) = false) :
    delete_directory m r fs rf = (.not_found "directory does not exist", fs) := by
  simp only [delete_directory]
  rw [h1, h2]
  rfl

/-- Witness for the amended C9: deleting the never-created model root
directory reports not-found. -/
theorem delete_directory_not_found_witness :
    delete_directory "base" "" [] false
      = (.not_found "directory does not exist", []) :=
  delete_directory_not_found_inside "base" "" [] false (by decide) (by decide)

/-- C9 (counterexample): a target that does not exist on disk but fails
the containment check gets an error result, not the not-found result
the claim promises for every nonexistent target. -/
theorem delete_directory_missing_target_error :
    (([] : List String).any
        (fun p => p.data == delete_target_abs "base" "../../x")) = false
    ∧ delete_directory "base" "../../x" [] false
        = (.error "path outside the allowed area", []) := by
  decide
